import Mathlib

/-!
Verification of the `StdWorkerThread` worker-thread library
(`WorkerThread.h` / `WorkerThread.cpp`).

The C++ class `WorkerThread` owns a FIFO message queue of `ThreadMsg`
entries, a consumer thread running `Process`, and a subordinate timer
thread running `TimerThread`.  We embed the state of one `WorkerThread`
instance shallowly: the queue becomes a Lean list (front at the head),
the `m_thread` pointer becomes a Boolean ("a consumer thread exists"),
the atomic flags become Booleans, and each member function becomes a
Lean function on that state.  Fatal assertions (`ASSERT_TRUE`/`ASSERT`
from `Fault.h`) are modelled as an error outcome that aborts execution.

The dispatch loop `Process` is modelled as a recursion over the queue
contents that produces the ordered trace of dispatch events; since the
loop blocks whenever the queue is empty, running the model on a finite
queue ends either in a `waiting` outcome (the loop blocks on the
condition variable), a `returned` outcome (it popped the exit message),
or a `fault` outcome (an assertion fired).
-/

/-- `#define MSG_EXIT_THREAD 1` -/
def MSG_EXIT_THREAD : Int := 1

/-- `#define MSG_POST_USER_DATA 2` -/
def MSG_POST_USER_DATA : Int := 2

/-- `#define MSG_TIMER 3` -/
def MSG_TIMER : Int := 3

/-- `struct UserData { std::string msg; int year; }` -/
structure UserData where
  msg : String
  year : Int
deriving DecidableEq

/-- `struct ThreadMsg { int id; std::shared_ptr<void> msg; }`.
The `msg` pointer is nullable (`ExitThread` and `TimerThread` construct
messages with a null payload), so it is an `Option UserData`. -/
structure ThreadMsg where
  id : Int
  msg : Option UserData
deriving DecidableEq

/-- The fatal assertions of `Fault.h` that the worker code can hit. -/
inductive FaultReason
  /-- `ASSERT_TRUE(m_thread)` in `WorkerThread::PostMsg`. -/
  | nullThreadAssert
  /-- `ASSERT_TRUE(msg->msg != NULL)` in the `MSG_POST_USER_DATA` branch
  of `WorkerThread::Process`. -/
  | nullPayloadAssert
  /-- `ASSERT()` in the `default` branch of `WorkerThread::Process`. -/
  | unknownTagAssert
deriving DecidableEq

/-- State of one `WorkerThread` instance.  `m_thread : Bool` abstracts
the `std::unique_ptr<std::thread>` (`true` iff non-null); `m_queue` is
the `std::queue` with its front at the list head. -/
structure WorkerThread where
  m_thread : Bool
  m_exit : Bool
  m_timerExit : Bool
  m_queue : List ThreadMsg
  THREAD_NAME : String
deriving DecidableEq

namespace WorkerThread

/-- `WorkerThread::WorkerThread(const std::string&)`: `m_thread(nullptr),
m_exit(false), m_timerExit(false), THREAD_NAME(threadName)`, queue empty. -/
def construct (threadName : String) : WorkerThread :=
  { m_thread := false
    m_exit := false
    m_timerExit := false
    m_queue := []
    THREAD_NAME := threadName }

/-- `WorkerThread::CreateThread`: if `m_thread` is null, spawn the
consumer thread (which first fulfils the start promise, then sets
`m_timerExit = false` and enters its loop) and wait on the start future;
always returns `true`.  In the sequential model the rendezvous means the
consumer's initialisation has happened by the time the call returns. -/
def CreateThread (s : WorkerThread) : WorkerThread × Bool :=
  if s.m_thread = false then
    ({ s with m_thread := true, m_timerExit := false }, true)
  else
    (s, true)

/-- `WorkerThread::GetQueueSize`: `m_queue.size()` under the lock. -/
def GetQueueSize (s : WorkerThread) : Nat :=
  s.m_queue.length

/-- `WorkerThread::PostMsg(std::shared_ptr<UserData> data)`: return
silently if `m_exit` is set; `ASSERT_TRUE(m_thread)`; otherwise push a
`ThreadMsg(MSG_POST_USER_DATA, data)` onto the back of the queue. -/
def PostMsg (s : WorkerThread) (data : Option UserData) :
    Except FaultReason WorkerThread :=
  if s.m_exit then
    .ok s
  else if s.m_thread = false then
    .error .nullThreadAssert
  else
    .ok { s with m_queue := s.m_queue ++ [⟨MSG_POST_USER_DATA, data⟩] }

end WorkerThread

/-- An observable action of the dispatch loop `WorkerThread::Process`,
in the order the loop performs them. -/
inductive DispatchEvent
  /-- `MSG_POST_USER_DATA` branch: the user payload is handed to the
  application handler (here: printed with the worker's name). -/
  | userPayload (d : UserData)
  /-- `MSG_TIMER` branch: the timer handler runs. -/
  | timerExpired
  /-- `MSG_EXIT_THREAD` branch, first statement: `m_timerExit = true`. -/
  | stopTimer
  /-- `MSG_EXIT_THREAD` branch, second statement: `timerThread.join()`. -/
  | timerJoined
deriving DecidableEq

/-- Result of running the dispatch loop on a finite queue. -/
inductive LoopOutcome
  /-- The loop popped a `MSG_EXIT_THREAD` message and returned; `events`
  is the ordered trace of its actions and `rest` the messages still in
  the queue, never dispatched. -/
  | returned (events : List DispatchEvent) (rest : List ThreadMsg)
  /-- The queue ran dry: the loop blocks in `m_cv.wait` after the trace
  `events`. -/
  | waiting (events : List DispatchEvent)
  /-- A fatal assertion fired after the trace `events`. -/
  | fault (r : FaultReason) (events : List DispatchEvent)
deriving DecidableEq

/-- Prepend an event performed before the rest of the run. -/
def LoopOutcome.withEvent (e : DispatchEvent) : LoopOutcome → LoopOutcome
  | .returned es rest => .returned (e :: es) rest
  | .waiting es => .waiting (e :: es)
  | .fault r es => .fault r (e :: es)

namespace WorkerThread

/-- `WorkerThread::Process`, dispatch phase: pop the front message and
switch on `msg->id` — `MSG_POST_USER_DATA` asserts the payload is
non-null and dispatches it; `MSG_TIMER` dispatches a tick;
`MSG_EXIT_THREAD` sets `m_timerExit`, joins the timer thread and
returns; any other tag hits `ASSERT()`. -/
def Process : List ThreadMsg → LoopOutcome
  | [] => .waiting []
  | m :: rest =>
    if m.id = MSG_POST_USER_DATA then
      match m.msg with
      | none => .fault .nullPayloadAssert []
      | some d => (Process rest).withEvent (.userPayload d)
    else if m.id = MSG_TIMER then
      (Process rest).withEvent .timerExpired
    else if m.id = MSG_EXIT_THREAD then
      .returned [.stopTimer, .timerJoined] rest
    else
      .fault .unknownTagAssert []

end WorkerThread

/-- Result of `WorkerThread::ExitThread`.  Because the call joins the
consumer thread, it never returns if the consumer faults or blocks. -/
inductive ExitOutcome
  /-- `ExitThread` returned, leaving the instance in state `s`. -/
  | ok (s : WorkerThread)
  /-- The consumer hit a fatal assertion while draining towards the exit
  message; the program aborts and the join never completes. -/
  | fault (r : FaultReason)
  /-- The consumer blocked forever, so the join never completes. -/
  | blocked
deriving DecidableEq

/-- The drain loop at the end of `WorkerThread::ExitThread`:
`while (!m_queue.empty()) m_queue.pop();`. -/
def drainQueue : List ThreadMsg → List ThreadMsg
  | [] => []
  | _ :: rest => drainQueue rest

namespace WorkerThread

/-- `WorkerThread::ExitThread`: return immediately if `m_thread` is
null.  Otherwise push `ThreadMsg(MSG_EXIT_THREAD, 0)` onto the back of
the queue, store `m_exit = true`, join the consumer (which runs
`Process` until it pops the exit message), then set `m_thread = nullptr`
and drain whatever is left in the queue. -/
def ExitThread (s : WorkerThread) : ExitOutcome :=
  if s.m_thread = false then
    .ok s
  else
    match Process (s.m_queue ++ [⟨MSG_EXIT_THREAD, none⟩]) with
    | .returned _ rest =>
        .ok { s with
                m_thread := false
                m_exit := true
                m_timerExit := true
                m_queue := drainQueue rest }
    | .waiting _ => .blocked
    | .fault r _ => .fault r

end WorkerThread

/-!
Timer generator: `WorkerThread::TimerThread` is
`while (!m_timerExit) { sleep_for(250ms); m_queue.push(MSG_TIMER); notify; }`.
The flag `m_timerExit` is an atomic Boolean set asynchronously by the
consumer.  We model the generator's execution as the ordered trace of
its atomic actions — one flag read at the top of each iteration, one
250ms sleep, one tick enqueue — indexed by a global position counter,
with the flag-set moment a position `setAt`: a read at position `idx`
returns `true` exactly when `setAt ≤ idx`.  `fuel` bounds the number of
iterations we unroll (the loop itself is unbounded). -/

/-- One atomic action of the timer generator thread. -/
inductive TimerEvent
  /-- the `while (!m_timerExit)` test, with the value it read -/
  | checkFlag (v : Bool)
  /-- `std::this_thread::sleep_for(std::chrono::milliseconds(ms))` -/
  | sleep (ms : Nat)
  /-- `m_queue.push(ThreadMsg(MSG_TIMER, 0)); m_cv.notify_one();` -/
  | enqueueTick
deriving DecidableEq

namespace WorkerThread

/-- `WorkerThread::TimerThread`, as the trace of its actions when
`m_timerExit` becomes true at global position `setAt` and the loop's
next action has global position `idx`.  Each iteration reads the flag
once at the top; if it reads `false` it sleeps 250 ms and enqueues one
`MSG_TIMER`, otherwise the loop terminates. -/
def TimerThread (fuel setAt idx : Nat) : List TimerEvent :=
  match fuel with
  | 0 => []
  | fuel + 1 =>
    if setAt ≤ idx then
      [.checkFlag true]
    else
      .checkFlag false :: .sleep 250 :: .enqueueTick ::
        TimerThread fuel setAt (idx + 3)

end WorkerThread

/-- The three actions of one full (non-terminating) timer iteration. -/
def timerIteration : List TimerEvent :=
  [.checkFlag false, .sleep 250, .enqueueTick]

/-- Number of `enqueueTick` events in `es` whose global position
(starting at `base`) is at least `setAt` — ticks enqueued at or after
the moment the stop flag was set. -/
def ticksAtOrAfter (setAt : Nat) : List TimerEvent → Nat → Nat
  | [], _ => 0
  | e :: es, base =>
    (if setAt ≤ base ∧ e = TimerEvent.enqueueTick then 1 else 0) +
      ticksAtOrAfter setAt es (base + 1)

/-!
Start rendezvous: `CreateThread` obtains `m_threadStartFuture`, spawns
the consumer, and blocks in `m_threadStartFuture.get()`; the consumer's
very first statement in `Process` is `m_threadStartPromise.set_value()`,
after which it spawns the timer thread and enters its dispatch loop.  We
model the two threads as a transition system over program counters and
prove the rendezvous ordering over all interleavings. -/

/-- Joint state of the creating thread and the consumer thread during
the start rendezvous. `callerPC`: 0 = before spawning in `CreateThread`,
1 = blocked in `m_threadStartFuture.get()`, 2 = returned from
`CreateThread`.  `consumerPC`: 0 = spawned, before
`m_threadStartPromise.set_value()`, 1 = promise fulfilled, 2 = inside
the dispatch loop of `Process`. -/
structure RendezvousState where
  promiseSet : Bool
  consumerSpawned : Bool
  callerPC : Nat
  consumerPC : Nat
deriving DecidableEq

/-- The state in which `CreateThread` is entered: no consumer thread,
promise unfulfilled. -/
def rendezvousInit : RendezvousState :=
  { promiseSet := false, consumerSpawned := false, callerPC := 0, consumerPC := 0 }

/-- Interleaved atomic steps of `CreateThread` (caller) and `Process`
(consumer) during the start rendezvous. -/
inductive RendezvousStep : RendezvousState → RendezvousState → Prop
  /-- Caller: `m_thread = new thread(&WorkerThread::Process, this)` —
  the consumer now exists, the caller moves to the `future.get()` call. -/
  | spawn (s : RendezvousState) (h : s.callerPC = 0) :
      RendezvousStep s { s with callerPC := 1, consumerSpawned := true }
  /-- Consumer: `m_threadStartPromise.set_value()`, its first statement
  in `Process`. -/
  | setValue (s : RendezvousState) (hsp : s.consumerSpawned = true)
      (h : s.consumerPC = 0) :
      RendezvousStep s { s with consumerPC := 1, promiseSet := true }
  /-- Consumer: initialises `m_timerExit`, spawns the timer thread and
  enters the dispatch loop, after the promise was fulfilled. -/
  | enterLoop (s : RendezvousState) (h : s.consumerPC = 1) :
      RendezvousStep s { s with consumerPC := 2 }
  /-- Caller: `m_threadStartFuture.get()` completes — only enabled once
  the promise holds a value — and `CreateThread` returns. -/
  | futureGet (s : RendezvousState) (hp : s.promiseSet = true)
      (h : s.callerPC = 1) :
      RendezvousStep s { s with callerPC := 2 }

/-- States reachable from the entry of `CreateThread` by interleaving
caller and consumer steps. -/
inductive RendezvousReachable : RendezvousState → Prop
  | init : RendezvousReachable rendezvousInit
  | step {s t : RendezvousState} (hr : RendezvousReachable s)
      (hs : RendezvousStep s t) : RendezvousReachable t

/-!
Operation sequences on one `WorkerThread` instance, used to state
properties that hold "forever" (over any client behaviour after some
point).  A fatal assertion or a hung join stops the run. -/

/-- A client-visible operation on a `WorkerThread`. -/
inductive WOp
  | create
  | post (data : Option UserData)
  | exit
deriving DecidableEq

/-- Apply one operation; `none` when the operation never returns
(fatal assertion or a join that blocks forever). -/
def runOp (s : WorkerThread) : WOp → Option WorkerThread
  | .create => some (s.CreateThread).1
  | .post d =>
    match s.PostMsg d with
    | .ok s' => some s'
    | .error _ => none
  | .exit =>
    match s.ExitThread with
    | .ok s' => some s'
    | .fault _ => none
    | .blocked => none

/-- Run a sequence of operations from state `s`. -/
def runOps (s : WorkerThread) : List WOp → Option WorkerThread
  | [] => some s
  | op :: ops =>
    match runOp s op with
    | some s' => runOps s' ops
    | none => none

/-- Post a whole list of (non-null) payloads in order, as a sequence of
`PostMsg` calls. -/
def postAll (s : WorkerThread) : List UserData → Except FaultReason WorkerThread
  | [] => .ok s
  | d :: ds =>
    match s.PostMsg (some d) with
    | .ok s' => postAll s' ds
    | .error e => .error e

/-- The queue entry `PostMsg` builds for payload `d`. -/
def userMsg (d : UserData) : ThreadMsg :=
  ⟨MSG_POST_USER_DATA, some d⟩

/-- A queue entry the dispatch loop can handle without returning or
asserting: a user payload with a non-null envelope, or a timer tick. -/
def Dispatchable (m : ThreadMsg) : Prop :=
  (m.id = MSG_POST_USER_DATA ∧ m.msg ≠ none) ∨ m.id = MSG_TIMER

instance (m : ThreadMsg) : Decidable (Dispatchable m) := by
  unfold Dispatchable
  infer_instance

/-- The dispatch event the loop emits for a dispatchable queue entry. -/
def dispatchEventOf (m : ThreadMsg) : Option DispatchEvent :=
  if m.id = MSG_POST_USER_DATA then m.msg.map DispatchEvent.userPayload
  else if m.id = MSG_TIMER then some .timerExpired
  else none

/-- A queue entry carrying one of the three defined message tags. -/
def WellTagged (m : ThreadMsg) : Prop :=
  m.id = MSG_EXIT_THREAD ∨ m.id = MSG_POST_USER_DATA ∨ m.id = MSG_TIMER

instance (m : ThreadMsg) : Decidable (WellTagged m) := by
  unfold WellTagged
  infer_instance

/-- Rendezvous invariant: the promise is fulfilled only once the
consumer is past its first statement, and the caller returns from
`CreateThread` only once the promise is fulfilled. -/
def rendezvousInv (s : RendezvousState) : Prop :=
  (s.promiseSet = true → 1 ≤ s.consumerPC) ∧
    (s.callerPC = 2 → s.promiseSet = true)

/-! ## Helper lemmas -/

/-- The drain loop always leaves the queue empty. -/
theorem drainQueue_eq_nil : ∀ l : List ThreadMsg, drainQueue l = []
  | [] => rfl
  | _ :: rest => drainQueue_eq_nil rest

/-- Running the dispatch loop on a queue of user-payload messages
dispatches every payload, in queue order, then blocks. -/
theorem Process_userMsgs (ds : List UserData) :
    WorkerThread.Process (ds.map userMsg)
      = .waiting (ds.map DispatchEvent.userPayload) := by
  induction ds with
  | nil => rfl
  | cons d ds ih =>
      simp [WorkerThread.Process, userMsg, ih, LoopOutcome.withEvent]

/-- `postAll` on an accepting, started worker appends the payloads to
the back of the queue in order. -/
theorem postAll_ok (ds : List UserData) :
    ∀ s : WorkerThread, s.m_exit = false → s.m_thread = true →
      postAll s ds = .ok { s with m_queue := s.m_queue ++ ds.map userMsg } := by
  induction ds with
  | nil => intro s _ _; simp [postAll]
  | cons d ds ih =>
      intro s hexit hthread
      rw [postAll, WorkerThread.PostMsg]
      simp only [hexit, hthread, if_false, Bool.false_eq_true, if_neg,
        reduceCtorEq, not_false_eq_true]
      rw [ih _ rfl rfl]
      simp [userMsg, List.append_assoc]

/-! ## Claim theorems -/

/-- **C1** (confirmed): messages are dispatched by the consumer loop in
exactly the order they were successfully enqueued.  Starting from a
started, accepting worker with an empty queue, posting the payloads
`ds` (in this order, regardless of which producers issue the calls —
the queue is the single shared point) succeeds, leaves the queue
holding exactly those payloads in posting order, and the dispatch loop
then emits the corresponding `userPayload` events in exactly that
order, with no reordering or priority. -/
theorem fifo_global_order (s : WorkerThread) (ds : List UserData)
    (hthread : s.m_thread = true) (hexit : s.m_exit = false)
    (hq : s.m_queue = []) :
    ∃ s', postAll s ds = .ok s' ∧ s'.m_queue = ds.map userMsg ∧
      WorkerThread.Process s'.m_queue
        = .waiting (ds.map DispatchEvent.userPayload) := by
  refine ⟨_, postAll_ok ds s hexit hthread, ?_, ?_⟩ <;>
    simp [hq, Process_userMsgs]

/-- Witness for **C1** at a concrete started worker and two payloads. -/
theorem fifo_global_order_witness :
    ∃ s', postAll (((WorkerThread.construct "W1").CreateThread).1)
        [⟨"Hello world", 2017⟩, ⟨"Goodbye", 2018⟩] = .ok s' ∧
      s'.m_queue = [⟨"Hello world", 2017⟩, ⟨"Goodbye", 2018⟩].map userMsg ∧
      WorkerThread.Process s'.m_queue
        = .waiting ([(⟨"Hello world", 2017⟩ : UserData),
            ⟨"Goodbye", 2018⟩].map DispatchEvent.userPayload) :=
  fifo_global_order _ _ rfl rfl rfl

/-- **C2** (confirmed): once the exit flag is set, `PostMsg` silently
drops the message: it returns without asserting and the state — hence
the queue contents, the queue depth, and every future dispatch trace —
is unchanged, so no handler ever runs for the dropped message. -/
theorem post_after_shutdown_dropped (s : WorkerThread)
    (d : Option UserData) (h : s.m_exit = true) :
    s.PostMsg d = .ok s := by
  simp [WorkerThread.PostMsg, h]

/-- Witness for **C2** at a concrete worker with the exit flag set. -/
theorem post_after_shutdown_dropped_witness :
    WorkerThread.PostMsg ⟨false, true, false, [], "W1"⟩ (some ⟨"x", 1⟩)
      = .ok ⟨false, true, false, [], "W1"⟩ :=
  post_after_shutdown_dropped _ _ rfl

/-- **C3** (confirmed): whenever `ExitThread` returns on a started
worker, the resulting queue is empty — everything still queued after
the join is discarded by the drain loop without being dispatched. -/
theorem queue_empty_after_completed_shutdown (s s' : WorkerThread)
    (hthread : s.m_thread = true) (hok : s.ExitThread = .ok s') :
    s'.m_queue = [] := by
  unfold WorkerThread.ExitThread at hok
  rw [hthread] at hok
  simp only [Bool.true_eq_false, if_false] at hok
  cases hproc : WorkerThread.Process (s.m_queue ++ [⟨MSG_EXIT_THREAD, none⟩]) with
  | returned es rest =>
      rw [hproc] at hok
      cases hok
      exact drainQueue_eq_nil rest
  | waiting es => rw [hproc] at hok; cases hok
  | fault r es => rw [hproc] at hok; cases hok

/-- Witness for **C3**: shutting down a concrete started worker leaves
an empty queue. -/
theorem queue_empty_after_completed_shutdown_witness :
    (⟨false, true, true, [], "W1"⟩ : WorkerThread).m_queue = [] :=
  queue_empty_after_completed_shutdown
    ⟨true, false, false, [userMsg ⟨"x", 1⟩], "W1"⟩
    ⟨false, true, true, [], "W1"⟩ rfl (by decide)

/-- **C5** (confirmed): `ExitThread` is idempotent.  On a worker with
no consumer thread (never started, or already exited) it returns at
once with the state unchanged — in particular it does not block; and
whenever `ExitThread` completes, running it again from the resulting
state is such a no-op, so two calls end in the same state as one. -/
theorem shutdown_idempotent (s : WorkerThread) :
    (s.m_thread = false → s.ExitThread = .ok s) ∧
    (∀ s', s.ExitThread = .ok s' → s'.ExitThread = .ok s') := by
  constructor
  · intro h
    simp [WorkerThread.ExitThread, h]
  · intro s' h
    by_cases ht : s.m_thread = false
    · simp only [WorkerThread.ExitThread, ht, if_true] at h
      cases h
      simp [WorkerThread.ExitThread, ht]
    · simp only [WorkerThread.ExitThread, ht, if_false] at h
      cases hproc : WorkerThread.Process (s.m_queue ++ [⟨MSG_EXIT_THREAD, none⟩]) with
      | returned es rest =>
          rw [hproc] at h
          cases h
          simp [WorkerThread.ExitThread]
      | waiting es => rw [hproc] at h; cases h
      | fault r es => rw [hproc] at h; cases h

/-- Witness for **C5**: on a freshly constructed (never started)
worker, `ExitThread` is a no-op. -/
theorem shutdown_idempotent_witness :
    (WorkerThread.construct "W1").ExitThread
      = .ok (WorkerThread.construct "W1") :=
  (shutdown_idempotent (WorkerThread.construct "W1")).1 rfl

/-- **C9** (confirmed): posting to a worker that was never started
(`m_thread` null) and whose exit flag is clear hits
`ASSERT_TRUE(m_thread)` — a fatal assertion, neither an enqueue nor a
silent drop. -/
theorem post_without_thread_asserts (s : WorkerThread)
    (d : Option UserData) (hthread : s.m_thread = false)
    (hexit : s.m_exit = false) :
    s.PostMsg d = .error .nullThreadAssert := by
  simp [WorkerThread.PostMsg, hthread, hexit]

/-- Witness for **C9** on a freshly constructed worker. -/
theorem post_without_thread_asserts_witness :
    (WorkerThread.construct "W1").PostMsg (some ⟨"x", 1⟩)
      = .error .nullThreadAssert :=
  post_without_thread_asserts _ _ rfl rfl

/-- **C4** (confirmed): the exit message is enqueued behind all
already-queued messages (`ExitThread` pushes it at the back, cf. the
`m_queue ++ [⟨MSG_EXIT_THREAD, none⟩]` in its definition), and the loop
processes it in its turn: every dispatchable message ahead of it is
dispatched first, in order; on popping the exit message the loop sets
the timer stop flag, joins the timer thread, and returns, and the
messages behind it (`rest`) are dispatched by nobody. -/
theorem shutdown_processed_in_turn (ws rest : List ThreadMsg)
    (hwf : ∀ m ∈ ws, Dispatchable m) :
    WorkerThread.Process (ws ++ ⟨MSG_EXIT_THREAD, none⟩ :: rest)
      = .returned (ws.filterMap dispatchEventOf ++
          [.stopTimer, .timerJoined]) rest := by
  induction ws with
  | nil =>
      simp [WorkerThread.Process, MSG_EXIT_THREAD, MSG_POST_USER_DATA,
        MSG_TIMER]
  | cons m ws ih =>
      have hm := hwf m (List.mem_cons_self m ws)
      have hws : ∀ x ∈ ws, Dispatchable x :=
        fun x hx => hwf x (List.mem_cons_of_mem m hx)
      rcases hm with ⟨hid, hmsg⟩ | hid
      · obtain ⟨d, hd⟩ := Option.ne_none_iff_exists'.mp hmsg
        simp [WorkerThread.Process, hid, hd, ih hws, LoopOutcome.withEvent,
          dispatchEventOf, List.filterMap_cons]
      · simp [WorkerThread.Process, hid, ih hws, LoopOutcome.withEvent,
          dispatchEventOf, List.filterMap_cons, MSG_TIMER, MSG_POST_USER_DATA]

/-- Witness for **C4**: one payload and one tick ahead of the exit
message are dispatched in order; the payload behind it is not. -/
theorem shutdown_processed_in_turn_witness :
    WorkerThread.Process ([userMsg ⟨"a", 1⟩, ⟨MSG_TIMER, none⟩] ++
        ⟨MSG_EXIT_THREAD, none⟩ :: [userMsg ⟨"b", 2⟩])
      = .returned (([userMsg ⟨"a", 1⟩,
            ⟨MSG_TIMER, none⟩].filterMap dispatchEventOf) ++
          [.stopTimer, .timerJoined]) [userMsg ⟨"b", 2⟩] :=
  shutdown_processed_in_turn _ _ (by decide)

/-- If adding a leading event yields a fault outcome, the underlying
outcome was already a fault with the same reason. -/
theorem withEvent_fault_inv (o : LoopOutcome) (e : DispatchEvent)
    (r : FaultReason) (es : List DispatchEvent)
    (h : o.withEvent e = .fault r es) : ∃ es', o = .fault r es' := by
  cases o with
  | returned a b => simp [LoopOutcome.withEvent] at h
  | waiting a => simp [LoopOutcome.withEvent] at h
  | fault r' es' =>
      simp [LoopOutcome.withEvent] at h
      exact ⟨es', by rw [h.1]⟩

/-- **C7** (confirmed): contract violations are fatal.  A popped
user-payload message with a null envelope terminates the loop via
`ASSERT_TRUE(msg->msg != NULL)`; a popped message with a tag outside
the three defined kinds terminates it via `ASSERT()` — in both cases
the loop neither handles, skips, nor returns an error outcome.  And if
every queued message carries one of the three defined tags, the
unknown-tag assertion can never fire. -/
theorem contract_violation_fatal :
    (∀ rest : List ThreadMsg,
        WorkerThread.Process (⟨MSG_POST_USER_DATA, none⟩ :: rest)
          = .fault .nullPayloadAssert []) ∧
    (∀ (m : ThreadMsg) (rest : List ThreadMsg), ¬ WellTagged m →
        WorkerThread.Process (m :: rest) = .fault .unknownTagAssert []) ∧
    (∀ q : List ThreadMsg, (∀ m ∈ q, WellTagged m) →
        ∀ es, WorkerThread.Process q ≠ .fault .unknownTagAssert es) := by
  refine ⟨?_, ?_, ?_⟩
  · intro rest
    simp [WorkerThread.Process]
  · intro m rest hm
    unfold WellTagged at hm
    push_neg at hm
    obtain ⟨h1, h2, h3⟩ := hm
    simp [WorkerThread.Process, h1, h2, h3]
  · intro q
    induction q with
    | nil =>
        intro _ es h
        simp [WorkerThread.Process] at h
    | cons m q ih =>
        intro hq es h
        have hm := hq m (List.mem_cons_self m q)
        have hq' : ∀ x ∈ q, WellTagged x :=
          fun x hx => hq x (List.mem_cons_of_mem m hx)
        rcases hm with h1 | h2 | h3
        · rw [WorkerThread.Process] at h
          simp [h1, MSG_EXIT_THREAD, MSG_POST_USER_DATA, MSG_TIMER] at h
        · cases hmsg : m.msg with
          | none =>
              rw [WorkerThread.Process] at h
              simp [h2, hmsg] at h
          | some d =>
              rw [WorkerThread.Process] at h
              simp only [h2, hmsg, if_pos] at h
              obtain ⟨es', hes⟩ :=
                withEvent_fault_inv _ _ _ _ h
              exact ih hq' es' hes
        · rw [WorkerThread.Process] at h
          simp only [h3, MSG_TIMER, MSG_POST_USER_DATA, Int.reduceEq,
            if_false, if_true, reduceIte] at h
          obtain ⟨es', hes⟩ := withEvent_fault_inv _ _ _ _ h
          exact ih hq' es' hes

/-- Witness for **C7**: the two fatal branches at concrete inputs, and
unreachability of the unknown-tag assertion on a well-tagged queue. -/
theorem contract_violation_fatal_witness :
    WorkerThread.Process [⟨MSG_POST_USER_DATA, none⟩]
      = .fault .nullPayloadAssert [] ∧
    WorkerThread.Process [⟨7, none⟩] = .fault .unknownTagAssert [] ∧
    WorkerThread.Process [⟨MSG_TIMER, none⟩, ⟨MSG_EXIT_THREAD, none⟩]
      ≠ .fault .unknownTagAssert [] :=
  ⟨contract_violation_fatal.1 [],
   contract_violation_fatal.2.1 ⟨7, none⟩ [] (by decide),
   contract_violation_fatal.2.2 [⟨MSG_TIMER, none⟩, ⟨MSG_EXIT_THREAD, none⟩]
     (by decide) []⟩

/-- Once the generator's next action lies at or past the flag-set
moment, its very next check reads `true` and it performs no further
action. -/
theorem TimerThread_stopped (fuel setAt idx : Nat) (h : setAt ≤ idx) :
    WorkerThread.TimerThread fuel setAt idx = [] ∨
      WorkerThread.TimerThread fuel setAt idx = [.checkFlag true] := by
  cases fuel with
  | zero => exact .inl rfl
  | succ n =>
      right
      simp [WorkerThread.TimerThread, h]

/-- At most one tick event of the generator's trace lies at or past the
flag-set moment, whatever that moment is. -/
theorem ticksAtOrAfter_le_one (setAt : Nat) :
    ∀ fuel idx : Nat,
      ticksAtOrAfter setAt (WorkerThread.TimerThread fuel setAt idx) idx
        ≤ 1 := by
  intro fuel
  induction fuel with
  | zero =>
      intro idx
      simp [WorkerThread.TimerThread, ticksAtOrAfter]
  | succ n ih =>
      intro idx
      by_cases h : setAt ≤ idx
      · simp [WorkerThread.TimerThread, h, ticksAtOrAfter]
      · rw [WorkerThread.TimerThread]
        simp only [h, if_false]
        rw [ticksAtOrAfter, ticksAtOrAfter, ticksAtOrAfter]
        by_cases h2 : setAt ≤ idx + 1 + 1
        · rcases TimerThread_stopped n setAt (idx + 3) (by omega) with h0 | h0 <;>
            simp [h0, ticksAtOrAfter, h2, h]
        · have h1 : ¬ setAt ≤ idx + 1 := by omega
          simp only [h, h1, h2, false_and, and_true, and_false, if_false,
            reduceCtorEq, Nat.zero_add, zero_add]
          exact ih (idx + 3)

/-- Full shape of the generator's run: `k = ⌈(setAt - idx) / 3⌉`
complete iterations — each a flag check reading `false`, one 250 ms
sleep, one tick enqueue, in that order — then a final check reading
`true`. -/
theorem TimerThread_structure (setAt : Nat) :
    ∀ fuel idx : Nat, (setAt - idx + 2) / 3 < fuel →
      WorkerThread.TimerThread fuel setAt idx
        = List.flatten (List.replicate ((setAt - idx + 2) / 3) timerIteration)
            ++ [.checkFlag true] := by
  intro fuel
  induction fuel with
  | zero => intro idx h; exact absurd h (Nat.not_lt_zero _)
  | succ n ih =>
      intro idx h
      by_cases hle : setAt ≤ idx
      · have hk : (setAt - idx + 2) / 3 = 0 := by omega
        simp [WorkerThread.TimerThread, hle, hk]
      · have hk : (setAt - idx + 2) / 3
            = (setAt - (idx + 3) + 2) / 3 + 1 := by omega
        rw [WorkerThread.TimerThread]
        simp only [hle, if_false]
        rw [ih (idx + 3) (by omega), hk]
        simp [timerIteration, List.replicate_succ]

/-- **C6** (confirmed): the timer generator reads its stop flag exactly
once per iteration, at the top of its loop, and each full iteration is
one 250 ms sleep followed by exactly one `MSG_TIMER` enqueue (first
conjunct: the whole run is `k` such iterations and one final `true`
check).  Consequently at most one tick enqueue lies at or after the
moment `setAt` at which the stop flag is set — the worst-case stop
latency is one period (second conjunct). -/
theorem timer_checks_once_and_stop_latency (setAt fuel : Nat)
    (hfuel : (setAt + 2) / 3 < fuel) :
    WorkerThread.TimerThread fuel setAt 0
      = List.flatten (List.replicate ((setAt + 2) / 3) timerIteration)
          ++ [.checkFlag true] ∧
    ticksAtOrAfter setAt (WorkerThread.TimerThread fuel setAt 0) 0 ≤ 1 := by
  constructor
  · have h := TimerThread_structure setAt fuel 0 (by omega)
    simpa using h
  · exact ticksAtOrAfter_le_one setAt fuel 0

/-- Witness for **C6** with the flag set at position 4 (during the
second iteration) and fuel 3. -/
theorem timer_checks_once_and_stop_latency_witness :
    WorkerThread.TimerThread 3 4 0
      = List.flatten (List.replicate ((4 + 2) / 3) timerIteration)
          ++ [.checkFlag true] ∧
    ticksAtOrAfter 4 (WorkerThread.TimerThread 3 4 0) 0 ≤ 1 :=
  timer_checks_once_and_stop_latency 4 3 (by decide)

/-- Every rendezvous step preserves the rendezvous invariant, and the
initial state satisfies it. -/
theorem rendezvousInv_reachable (s : RendezvousState)
    (h : RendezvousReachable s) : rendezvousInv s := by
  induction h with
  | init =>
      exact ⟨fun hp => (nomatch hp), fun hc => nomatch hc⟩
  | step hr hs ih =>
      cases hs with
      | spawn h1 =>
          refine ⟨fun hp => ih.1 hp, fun hc => ?_⟩
          simp at hc
      | setValue hsp h1 =>
          refine ⟨fun _ => ?_, fun _ => rfl⟩
          simp
      | enterLoop h1 =>
          refine ⟨fun _ => ?_, fun hc => ih.2 hc⟩
          simp
      | futureGet hp h1 =>
          exact ⟨fun hpp => ih.1 hpp, fun _ => hp⟩

/-- **C8** (confirmed): over every interleaving of the caller's
`CreateThread` steps and the consumer's `Process` steps, the caller can
only have returned from `CreateThread` (`callerPC = 2`, which requires
`m_threadStartFuture.get()` to have completed, which requires the
promise to be fulfilled) if the consumer has already executed
`m_threadStartPromise.set_value()` — its one-shot "started" signal,
which in its program order precedes entering the dispatch loop
(`consumerPC` 1 before 2).  So a post issued after `CreateThread`
returns finds the consumer past its initialisation point. -/
theorem start_rendezvous_orders_consumer (s : RendezvousState)
    (hr : RendezvousReachable s) (hret : s.callerPC = 2) :
    1 ≤ s.consumerPC :=
  (rendezvousInv_reachable s hr).1 ((rendezvousInv_reachable s hr).2 hret)

/-- Witness for **C8**: a concrete interleaving
spawn–setValue–futureGet; in its final state the caller has returned
and the consumer is past its signal. -/
theorem start_rendezvous_orders_consumer_witness :
    1 ≤ (⟨true, true, 2, 1⟩ : RendezvousState).consumerPC :=
  start_rendezvous_orders_consumer _
    (RendezvousReachable.step
      (RendezvousReachable.step
        (RendezvousReachable.step RendezvousReachable.init
          (RendezvousStep.spawn rendezvousInit rfl))
        (RendezvousStep.setValue _ rfl rfl))
      (RendezvousStep.futureGet _ rfl rfl))
    rfl

/-- Any single operation that returns preserves a set exit flag. -/
theorem runOp_preserves_exit (s : WorkerThread) (op : WOp)
    (s' : WorkerThread) (hexit : s.m_exit = true)
    (h : runOp s op = some s') : s'.m_exit = true := by
  cases op with
  | create =>
      simp only [runOp, Option.some.injEq] at h
      subst h
      unfold WorkerThread.CreateThread
      split <;> simpa using hexit
  | post d =>
      simp only [runOp, WorkerThread.PostMsg, hexit, if_true] at h
      cases h
      exact hexit
  | exit =>
      simp only [runOp] at h
      cases hex : s.ExitThread with
      | ok t =>
          rw [hex] at h
          cases h
          unfold WorkerThread.ExitThread at hex
          by_cases ht : s.m_thread = false
          · rw [if_pos ht] at hex
            cases hex
            exact hexit
          · rw [if_neg ht] at hex
            cases hproc : WorkerThread.Process
                (s.m_queue ++ [⟨MSG_EXIT_THREAD, none⟩]) with
            | returned es rest => rw [hproc] at hex; cases hex; rfl
            | waiting es => rw [hproc] at hex; cases hex
            | fault r es => rw [hproc] at hex; cases hex
      | fault r => rw [hex] at h; cases h
      | blocked => rw [hex] at h; cases h

/-- Any sequence of operations that runs to completion preserves a set
exit flag. -/
theorem runOps_preserves_exit (ops : List WOp) :
    ∀ s s' : WorkerThread, s.m_exit = true → runOps s ops = some s' →
      s'.m_exit = true := by
  induction ops with
  | nil =>
      intro s s' hx h
      cases h
      exact hx
  | cons op ops ih =>
      intro s s' hx h
      rw [runOps] at h
      cases hop : runOp s op with
      | some t =>
          rw [hop] at h
          exact ih t s' (runOp_preserves_exit s op t hx hop) h
      | none => rw [hop] at h; cases h

/-- **C10** (confirmed): the exit flag is monotone.  It is `false` at
construction; `CreateThread` and a completed `PostMsg` leave it exactly
as it was (so only `ExitThread` ever sets it, and `ExitThread` only
ever raises it to `true`); once it is `true`, no sequence of
operations — including calling `CreateThread` again after a completed
shutdown — ever clears it, and every subsequent `PostMsg`, even after
such a restart, is silently dropped. -/
theorem exit_flag_monotone :
    (∀ name, (WorkerThread.construct name).m_exit = false) ∧
    (∀ s : WorkerThread, ((s.CreateThread).1).m_exit = s.m_exit) ∧
    (∀ (s s' : WorkerThread) (d : Option UserData),
        s.PostMsg d = .ok s' → s'.m_exit = s.m_exit) ∧
    (∀ s s' : WorkerThread, s.ExitThread = .ok s' →
        s'.m_exit = s.m_exit ∨ s'.m_exit = true) ∧
    (∀ (s : WorkerThread) (ops : List WOp) (s' : WorkerThread),
        s.m_exit = true → runOps s ops = some s' → s'.m_exit = true) ∧
    (∀ (s : WorkerThread) (d : Option UserData), s.m_exit = true →
        ((s.CreateThread).1).PostMsg d = .ok (s.CreateThread).1) := by
  refine ⟨fun _ => rfl, ?_, ?_, ?_, ?_, ?_⟩
  · intro s
    unfold WorkerThread.CreateThread
    split <;> rfl
  · intro s s' d h
    unfold WorkerThread.PostMsg at h
    by_cases hx : s.m_exit = true
    · rw [if_pos (by simp [hx])] at h
      cases h
      rfl
    · rw [if_neg (by simpa using hx)] at h
      by_cases ht : s.m_thread = false
      · rw [if_pos ht] at h
        cases h
      · rw [if_neg ht] at h
        cases h
        rfl
  · intro s s' h
    unfold WorkerThread.ExitThread at h
    by_cases ht : s.m_thread = false
    · rw [if_pos ht] at h
      cases h
      exact .inl rfl
    · rw [if_neg ht] at h
      cases hproc : WorkerThread.Process
          (s.m_queue ++ [⟨MSG_EXIT_THREAD, none⟩]) with
      | returned es rest => rw [hproc] at h; cases h; exact .inr rfl
      | waiting es => rw [hproc] at h; cases h
      | fault r es => rw [hproc] at h; cases h
  · intro s ops s' hx h
    exact runOps_preserves_exit ops s s' hx h
  · intro s d hx
    have hx' : ((s.CreateThread).1).m_exit = true := by
      unfold WorkerThread.CreateThread
      split <;> simpa using hx
    simp [WorkerThread.PostMsg, hx']

/-- Witness for **C10**: a worker whose exit flag is set is restarted,
posted to, and shut down again; the flag is still set at the end. -/
theorem exit_flag_monotone_witness :
    (⟨false, true, true, [], "W1"⟩ : WorkerThread).m_exit = true :=
  exit_flag_monotone.2.2.2.2.1 ⟨false, true, false, [], "W1"⟩
    [.create, .post (some ⟨"x", 1⟩), .exit]
    ⟨false, true, true, [], "W1"⟩ rfl (by decide)
